import Mathlib

/-!
Verification of the technical indicator and signal evaluation engine of the
Trend_Speculator_Strategy repository (Python modules `etf_trend_evaluation.py`,
`etf_risk_monitor.py`, `position_management.py`).

Modelling conventions.  Prices, volumes and indicator values are rationals; a
pandas NaN cell is `none` in an `Option ℚ` column.  The `round(x, k)` calls the
Python code applies when packing its result dictionaries are display rounding
(spec §4.5: "a presentation step, not used in subsequent calculations"), so the
embedded records carry the exact values.  Columns produced by the external `ta`
library follow that library's documented behaviour: `EMAIndicator` is the
`ewm(span=w, min_periods=w, adjust=False)` recurrence (first `w-1` cells NaN),
`OnBalanceVolumeIndicator` is `np.where(close < close.shift(1), -volume,
volume).cumsum()`, and `Series.idxmax` returns the index label of the first
occurrence of the maximum.
-/

/-- One OHLCV bar (the fields the engine reads; dates are carried separately
where a function inspects them). -/
structure Bar where
  high : ℚ
  low : ℚ
  close : ℚ
  volume : ℚ
deriving DecidableEq

/-- pandas `Series.tail n`: the last `n` entries (all of them when fewer exist). -/
def tailN (n : ℕ) (xs : List α) : List α := xs.drop (xs.length - n)

/-- pandas `Series.mean()`: the mean of the defined (non-NaN) entries, NaN
(`none`) when every entry is NaN. -/
def meanSkipNA (xs : List (Option ℚ)) : Option ℚ :=
  let vs := xs.filterMap id
  if vs.length = 0 then none else some (vs.sum / (vs.length : ℚ))

/-! ### position_management.py -/

/-- 单只ETF最大亏损承受额 (`MAX_LOSS_PER_ETF`). -/
def MAX_LOSS_PER_ETF : ℚ := 150

/-- ATR计算周期 (`ATR_PERIOD`). -/
def ATR_PERIOD : ℕ := 14

/-- ATR系数 (`ATR_MULTIPLIER`). -/
def ATR_MULTIPLIER : ℚ := 2

/-- Row-wise true range
`max(high-low, max(|high-prev_close|, |low-prev_close|))` for rows after the
first one. -/
def trValue (prevClose : ℚ) (b : Bar) : ℚ :=
  max (b.high - b.low) (max |b.high - prevClose| |b.low - prevClose|)

/-- true-range values of the rows that have a previous close. -/
def trValues (prevClose : ℚ) : List Bar → List ℚ
  | [] => []
  | b :: rest => trValue prevClose b :: trValues b.close rest

/-- the `tr` column of `calculate_position`: `close.shift(1)` makes the first
row NaN and `np.maximum` propagates that NaN; every later row is defined. -/
def trColumn : List Bar → List (Option ℚ)
  | [] => []
  | b :: rest => none :: (trValues b.close rest).map some

/-- `df['tr'].tail(ATR_PERIOD).mean()`. -/
def latestATR (bars : List Bar) : Option ℚ :=
  meanSkipNA (tailN ATR_PERIOD (trColumn bars))

/-- The result dictionary of `calculate_position` (exact values; the source
display-rounds price/ATR to 3 decimals and percentages/currency to 2). -/
structure PositionRec where
  price : ℚ
  atr : ℚ
  quantity : ℤ
  stop_loss_pct : ℚ
  max_loss : ℚ
deriving DecidableEq, Repr

/-- `calculate_position` on already-fetched data (`get_etf_data` returning
`None` is the `none` input).  Control flow of the source: length gate, ATR/price
validity gate, then the sizing formulas.  When `ATR_MULTIPLIER * latest_atr`
is zero, the source's `MAX_LOSS_PER_ETF // (...)` float floor-division produces
a non-finite value, `int()` on it raises, and the surrounding `except` handler
returns `None`; that path is the `risk = 0` branch here. -/
def calculate_position (df : Option (List Bar)) : Option PositionRec :=
  match df with
  | none => none
  | some bars =>
    if bars.length < ATR_PERIOD then none
    else
      match latestATR bars, (bars.map Bar.close).getLast? with
      | some latest_atr, some current_price =>
        if current_price ≤ 0 then none
        else if ATR_MULTIPLIER * latest_atr = 0 then none
        else
          some { price := current_price
               , atr := latest_atr
               , quantity :=
                   max 100 (Int.fdiv ⌊MAX_LOSS_PER_ETF / (ATR_MULTIPLIER * latest_atr)⌋ 100 * 100)
               , stop_loss_pct := ATR_MULTIPLIER * latest_atr / current_price * 100
               , max_loss := ATR_MULTIPLIER * latest_atr *
                   ((max 100 (Int.fdiv ⌊MAX_LOSS_PER_ETF / (ATR_MULTIPLIER * latest_atr)⌋ 100 * 100) : ℤ) : ℚ) }
      | _, _ => none

/-- 14 identical bars with a 2-point daily range: every defined true range is 2. -/
def demoBars : List Bar := List.replicate 14 ⟨12, 10, 11, 0⟩

/-- the record `calculate_position` produces on `demoBars`. -/
def demoRec : PositionRec :=
  { price := 11, atr := 2, quantity := 100, stop_loss_pct := 400 / 11, max_loss := 400 }

/-- 15 identical bars with a 2-point daily range. -/
def bars15 : List Bar := List.replicate 15 ⟨12, 10, 11, 0⟩

/-- 14 bars of a completely flat market: every defined true range is 0, so the
ATR is defined and equal to 0 while the close is positive. -/
def flatBars : List Bar := List.replicate 14 ⟨10, 10, 10, 0⟩

/-- 14 bars whose most recent close is 0. -/
def zeroCloseBars : List Bar :=
  List.replicate 13 ⟨12, 10, 11, 0⟩ ++ [⟨12, 10, 0, 0⟩]

/-! ### etf_trend_evaluation.py -/

/-- `adx_score = min(adx_value, 50) / 50 * 100`. -/
def adx_score (adx : ℚ) : ℚ := min adx 50 / 50 * 100

/-- `macd_status == '是'`, i.e. `latest['MACD_DIF'] > 0 and latest['MACD_DEA'] > 0`. -/
def macd_bullish (dif dea : ℚ) : Bool := decide (0 < dif) && decide (0 < dea)

/-- `macd_score = 100 if macd_status == '是' else 0`. -/
def macd_score (dif dea : ℚ) : ℚ := if macd_bullish dif dea then 100 else 0

/-- `rsi_score = max(0, (rsi_value - 50) / 30 * 100)`. -/
def rsi_score (rsi : ℚ) : ℚ := max 0 ((rsi - 50) / 30 * 100)

/-- `total_score = adx_score * 0.4 + macd_score * 0.3 + rsi_score * 0.3`. -/
def total_score (adx dif dea rsi : ℚ) : ℚ :=
  adx_score adx * 0.4 + macd_score dif dea * 0.3 + rsi_score rsi * 0.3

/-- One row of the indicator-augmented frame produced by
`calculate_technical_indicators`: the ADX, MACD_DIF, MACD_DEA and RSI columns.
The numeric production of these columns (the `ta` library's Wilder ADX/RSI and
the `ewm` MACD recurrences) is deterministic in the bars and is abstracted into
the row values; the claims about this module quantify over the latest values. -/
structure TrendRow where
  adx : ℚ
  macd_dif : ℚ
  macd_dea : ℚ
  rsi : ℚ
deriving DecidableEq, Repr

/-- The result dictionary of `evaluate_trend` (exact values; the source
display-rounds ADX/RSI to 2 decimals and the score to 1). -/
structure TrendEval where
  etf_code : String
  adx_value : ℚ
  macd_bull : Bool
  rsi_value : ℚ
  score : ℚ
deriving DecidableEq, Repr

/-- `evaluate_trend(df, etf_code)`: `None` on missing data or fewer than 30
bars, otherwise the scores computed from the latest row (`df.iloc[-1]`). -/
def evaluate_trend (df : Option (List TrendRow)) (etf_code : String) : Option TrendEval :=
  match df with
  | none => none
  | some rows =>
    if rows.length < 30 then none
    else
      match rows.getLast? with
      | none => none
      | some latest =>
        some { etf_code := etf_code
             , adx_value := latest.adx
             , macd_bull := macd_bullish latest.macd_dif latest.macd_dea
             , rsi_value := latest.rsi
             , score := total_score latest.adx latest.macd_dif latest.macd_dea latest.rsi }

/-- `calculate_technical_indicators(df)`: `None` on missing data or fewer than
30 bars, otherwise the frame with indicator columns (already carried by the
abstract rows, so length and content are preserved). -/
def calculate_technical_indicators (df : Option (List TrendRow)) : Option (List TrendRow) :=
  match df with
  | none => none
  | some rows => if rows.length < 30 then none else some rows

/-- descending order on the composite score, the sort key of
`df.sort_values('综合趋势评分', ascending=False)`. -/
def scoreGE (a b : TrendEval) : Prop := b.score ≤ a.score

instance : DecidableRel scoreGE := fun a b => inferInstanceAs (Decidable (b.score ≤ a.score))

instance : IsTotal TrendEval scoreGE := ⟨fun a b => le_total b.score a.score⟩

instance : IsTrans TrendEval scoreGE := ⟨fun _ _ _ h1 h2 => le_trans h2 h1⟩

/-- the sort `df.sort_values('综合趋势评分', ascending=False)` (any sorting
algorithm produces a sorted permutation; the source sorts on the
display-rounded score column, which is monotone in the exact score). -/
def sortByScoreDesc (l : List TrendEval) : List TrendEval := List.insertionSort scoreGE l

/-- the per-instrument pipeline of the loop body of `evaluate_multiple_etfs`:
fetch (`get_etf_data`, the external provider, modelled as an oracle), indicator
computation, trend evaluation; `none` when any stage fails and the loop
`continue`s. -/
def successRecord (fetch : String → Option (List TrendRow)) (etf_code : String) :
    Option TrendEval :=
  match calculate_technical_indicators (fetch etf_code) with
  | none => none
  | some d => evaluate_trend (some d) etf_code

/-- the records of the instruments that succeed, in input order. -/
def successRecords (fetch : String → Option (List TrendRow)) (codes : List String) :
    List TrendEval :=
  codes.filterMap (successRecord fetch)

/-- `evaluate_multiple_etfs(etf_codes)`: iterate the codes, skip failures,
collect the evaluations, return `None` when nothing succeeded and otherwise the
collection sorted by composite score descending. -/
def evaluate_multiple_etfs (fetch : String → Option (List TrendRow))
    (codes : List String) : Option (List TrendEval) :=
  let results := codes.foldl (fun acc etf_code =>
    match calculate_technical_indicators (fetch etf_code) with
    | none => acc
    | some d =>
      match evaluate_trend (some d) etf_code with
      | none => acc
      | some ev => acc ++ [ev]) []
  if results.isEmpty then none else some (sortByScoreDesc results)

/-- a latest row with strong-trend values: ADX 50, both MACD lines positive,
RSI 100 (the saturation value RSI reaches on a monotone rise). -/
def hotRow : TrendRow := ⟨50, 1, 1, 100⟩

/-- 30 bars of strong-trend indicator values. -/
def rows30Hot : List TrendRow := List.replicate 30 hotRow

/-- instrument identifier used in concrete evaluations. -/
def codeX : String := "X"

/-- the record `evaluate_trend` produces on `rows30Hot`:
`0.4*100 + 0.3*100 + 0.3*(500/3) = 120`. -/
def evHot : TrendEval :=
  { etf_code := codeX, adx_value := 50, macd_bull := true, rsi_value := 100, score := 120 }

/-- instrument identifier `A`. -/
def codeA : String := "A"

/-- instrument identifier `B`. -/
def codeB : String := "B"

/-- instrument identifier `C`. -/
def codeC : String := "C"

/-- 30 bars of weak indicator values (score 0). -/
def rows30Cold : List TrendRow := List.replicate 30 ⟨0, -1, 0, 50⟩

/-- the record `evaluate_trend` produces on `rows30Cold`. -/
def evCold : TrendEval :=
  { etf_code := codeB, adx_value := 0, macd_bull := false, rsi_value := 50, score := 0 }

/-- the record `evaluate_trend` produces on `rows30Hot` for instrument `A`. -/
def evHotA : TrendEval :=
  { etf_code := codeA, adx_value := 50, macd_bull := true, rsi_value := 100, score := 120 }

/-- a demo data provider: history for `A` and `B`, a failed fetch for every
other code. -/
def fetchDemo : String → Option (List TrendRow) := fun c =>
  if c = codeA then some rows30Hot
  else if c = codeB then some rows30Cold
  else none

/-- the demo batch: one fetch failure (`C`) between two successes. -/
def codesDemo : List String := [codeA, codeC, codeB]

/-! ### etf_risk_monitor.py -/

/-- RSI指标计算周期 (`RSI_PERIOD`). -/
def RSI_PERIOD : ℕ := 14

/-- 短期EMA周期 (`EMA_SHORT`). -/
def EMA_SHORT : ℕ := 12

/-- 长期EMA周期 (`EMA_LONG`). -/
def EMA_LONG : ℕ := 26

/-- scan state of pandas `Series.idxmax`: the running maximum is replaced only
by a strictly greater value, so the label of the first occurrence of the
maximum is kept. -/
def idxmaxAux (bestDate : ℤ) (bestVal : ℚ) : List (ℤ × ℚ) → ℤ
  | [] => bestDate
  | (d, v) :: rest => if bestVal < v then idxmaxAux d v rest else idxmaxAux bestDate bestVal rest

/-- pandas `Series.idxmax` on a series of (date, value) pairs (the default is
never reached through the gated callers, which pass nonempty windows). -/
def idxmax (dflt : ℤ) : List (ℤ × ℚ) → ℤ
  | [] => dflt
  | (d, v) :: rest => idxmaxAux d v rest

/-- `series.index[-1]`. -/
def lastIndex (dflt : ℤ) (s : List (ℤ × ℚ)) : ℤ :=
  ((s.getLast?).map Prod.fst).getD dflt

/-- the divergence test shared by `check_rsi_divergence` and
`check_obv_divergence`: over the last five dates, the price maximum occurs at
the most recent date while the oscillator maximum does not
(`last_5.idxmax() == last_5.index[-1] and last_5_osc.idxmax() != last_5_osc.index[-1]`). -/
def topDivergence (price osc : List (ℤ × ℚ)) : Bool :=
  let p5 := tailN 5 price
  let o5 := tailN 5 osc
  decide (idxmax 0 p5 = lastIndex 0 p5) && !(decide (idxmax 0 o5 = lastIndex 0 o5))

/-- Modelled from the spec: an arg-max scan with the last-occurrence tie-break
the specification describes ("if multiple dates share the maximum price, the
latest such date is taken as the arg-max"); ties also move the running
maximum. -/
def idxmaxLastAux (bestDate : ℤ) (bestVal : ℚ) : List (ℤ × ℚ) → ℤ
  | [] => bestDate
  | (d, v) :: rest => if bestVal ≤ v then idxmaxLastAux d v rest else idxmaxLastAux bestDate bestVal rest

/-- Modelled from the spec: `idxmax` with the last-occurrence tie-break. -/
def idxmaxLastOcc (dflt : ℤ) : List (ℤ × ℚ) → ℤ
  | [] => dflt
  | (d, v) :: rest => idxmaxLastAux d v rest

/-- Modelled from the spec: the top-divergence flag computed with the
last-occurrence arg-max the specification prescribes. -/
def topDivergenceSpecLastOcc (price osc : List (ℤ × ℚ)) : Bool :=
  let p5 := tailN 5 price
  let o5 := tailN 5 osc
  decide (idxmaxLastOcc 0 p5 = lastIndex 0 p5) && !(decide (idxmaxLastOcc 0 o5 = lastIndex 0 o5))

/-- `check_rsi_divergence(df)`: gate `len(df) < RSI_PERIOD + 5`, then the
divergence test of the close series against the RSI series.  The RSI column
(`RSIIndicator(df['close'], window=RSI_PERIOD).rsi()`, an external-library
transformation aligned to the same dates) enters as the parameter `rsi`. -/
def check_rsi_divergence (df rsi : List (ℤ × ℚ)) : Bool :=
  if df.length < RSI_PERIOD + 5 then false else topDivergence df rsi

/-- one OBV step of the `ta` library:
`np.where(close < close.shift(1), -volume, volume)` (note: volume is added, not
held, when the close is unchanged). -/
def obvRow (prevClose c v : ℚ) : ℚ := if c < prevClose then -v else v

/-- OBV deltas of the rows after the first. -/
def obvDeltas (prevClose : ℚ) : List (ℚ × ℚ) → List ℚ
  | [] => []
  | (c, v) :: rest => obvRow prevClose c v :: obvDeltas c rest

/-- the full OBV delta column: in the first row `close < NaN` is false, so the
first volume is added. -/
def obvDeltaColumn : List (ℚ × ℚ) → List ℚ
  | [] => []
  | (c, v) :: rest => v :: obvDeltas c rest

/-- running cumulative sum (`Series.cumsum`). -/
def cumsumFrom (acc : ℚ) : List ℚ → List ℚ
  | [] => []
  | x :: xs => (acc + x) :: cumsumFrom (acc + x) xs

/-- the close series of a (date, close, volume) frame. -/
def closeSeries (df : List (ℤ × ℚ × ℚ)) : List (ℤ × ℚ) :=
  df.map fun r => (r.1, r.2.1)

/-- `OnBalanceVolumeIndicator(df['close'], df['volume']).on_balance_volume()`,
aligned to the frame's dates. -/
def obvSeries (df : List (ℤ × ℚ × ℚ)) : List (ℤ × ℚ) :=
  (df.map fun r => r.1).zip (cumsumFrom 0 (obvDeltaColumn (df.map fun r => r.2)))

/-- `check_obv_divergence(df)`: gate `len(df) < 10`, then the divergence test
of the close series against the OBV series. -/
def check_obv_divergence (df : List (ℤ × ℚ × ℚ)) : Bool :=
  if df.length < 10 then false
  else topDivergence (closeSeries df) (obvSeries df)

/-- the `ewm(span=w, adjust=False).mean()` recurrence continued from a seed:
`e = α·x + (1-α)·e_prev` with `α = 2/(w+1)`. -/
def ewmaFrom (alpha prev : ℚ) : List ℚ → List ℚ
  | [] => []
  | x :: xs => (alpha * x + (1 - alpha) * prev) :: ewmaFrom alpha (alpha * x + (1 - alpha) * prev) xs

/-- `closes.ewm(span=w, adjust=False).mean()`: seeded at the first value. -/
def ewmaAdjFalse (w : ℕ) : List ℚ → List ℚ
  | [] => []
  | x :: xs => x :: ewmaFrom (2 / ((w : ℚ) + 1)) x xs

/-- replace the first `k` cells of a column by NaN, as pandas `min_periods`
does. -/
def maskFirst (k : ℕ) : List ℚ → List (Option ℚ)
  | [] => []
  | x :: xs =>
    match k with
    | 0 => some x :: maskFirst 0 xs
    | j + 1 => none :: maskFirst j xs

/-- `EMAIndicator(close, window=w).ema_indicator()` of the `ta` library:
`close.ewm(span=w, min_periods=w, adjust=False).mean()` — the adjust-false
recurrence with the first `w - 1` cells NaN. -/
def emaTA (w : ℕ) (closes : List ℚ) : List (Option ℚ) :=
  maskFirst (w - 1) (ewmaAdjFalse w closes)

/-- the number of defined (non-NaN) points of an indicator column. -/
def definedCount (l : List (Option ℚ)) : ℕ := (l.filterMap id).length

/-- float `>` under NaN semantics: any comparison against NaN is false. -/
def nanGt : Option ℚ → Option ℚ → Bool
  | some a, some b => decide (b < a)
  | _, _ => false

/-- float `<` under NaN semantics: any comparison against NaN is false. -/
def nanLt : Option ℚ → Option ℚ → Bool
  | some a, some b => decide (a < b)
  | _, _ => false

/-- the crossover comparison of `check_ema_death_cross`:
`ema_short.iloc[-2] > ema_long.iloc[-2] and ema_short.iloc[-1] < ema_long.iloc[-1]`. -/
def deathCrossStep (closes : List ℚ) : Bool :=
  nanGt ((emaTA EMA_SHORT closes).getD (closes.length - 2) none)
        ((emaTA EMA_LONG closes).getD (closes.length - 2) none) &&
  nanLt ((emaTA EMA_SHORT closes).getD (closes.length - 1) none)
        ((emaTA EMA_LONG closes).getD (closes.length - 1) none)

/-- `check_ema_death_cross(df)`: gate `len(df) < EMA_LONG + 1`, then the
single-step crossover comparison. -/
def check_ema_death_cross (closes : List ℚ) : Bool :=
  if closes.length < EMA_LONG + 1 then false else deathCrossStep closes

/-- 27 bars of a flat close series. -/
def demoFlat27 : List ℚ := List.replicate 27 10

/-- 25 bars of a flat close series (too short for the death-cross gate). -/
def demoFlat25 : List ℚ := List.replicate 25 10

/-- a five-date price window that ties its maximum (2) at the second and the
last date: first-occurrence arg-max is date 1, last-occurrence arg-max is
date 4. -/
def cexPrice : List (ℤ × ℚ) := [(0, 1), (1, 2), (2, 1), (3, 1), (4, 2)]

/-- a five-date oscillator window peaking strictly at the first date. -/
def cexOsc : List (ℤ × ℚ) := [(0, 9), (1, 1), (2, 1), (3, 1), (4, 1)]

/-- a five-date price window with a strict maximum at the last date. -/
def wPrice : List (ℤ × ℚ) := [(0, 1), (1, 2), (2, 3), (3, 4), (4, 9)]

/-- a five-date oscillator window peaking strictly at the first date. -/
def wOsc : List (ℤ × ℚ) := [(0, 7), (1, 1), (2, 1), (3, 1), (4, 1)]

/-- nine (date, close, volume) rows: the close peaks strictly at the last date
of the trailing window while the OBV peak sits at date 5 (the 100-volume
rally), i.e. a top divergence pattern on only nine points. -/
def ex9 : List (ℤ × ℚ × ℚ) :=
  [(0, 1, 1), (1, 1, 1), (2, 1, 1), (3, 1, 1), (4, 5, 1),
   (5, 10, 100), (6, 4, 1), (7, 3, 1), (8, 11, 1)]

/-- ten constant rows (long enough for the OBV gate). -/
def ex10 : List (ℤ × ℚ × ℚ) := List.replicate 10 (0, 1, 1)

/-- an 18-point frame (one short of the RSI-divergence gate). -/
def df18 : List (ℤ × ℚ) := List.replicate 18 (0, 1)

/-- a 19-point frame (exactly the RSI-divergence gate). -/
def df19 : List (ℤ × ℚ) := List.replicate 19 (0, 1)

/-- an arbitrary oscillator column for gate checks. -/
def rsiFlat : List (ℤ × ℚ) := List.replicate 19 (0, 50)

/-! ### general helper lemmas -/

theorem filterMap_id_map_some (l : List α) : (l.map some).filterMap id = l := by
  induction l with
  | nil => rfl
  | cons x xs ih => simp [ih]

theorem getLast?_replicate_succ (n : ℕ) (a : α) :
    (List.replicate (n + 1) a).getLast? = some a := by
  induction n with
  | zero => rfl
  | succ m ih => rw [List.replicate_succ]; rw [List.getLast?_cons]; rw [ih]; rfl

theorem trValues_length (c : ℚ) (l : List Bar) : (trValues c l).length = l.length := by
  induction l generalizing c with
  | nil => rfl
  | cons b rest ih => simp [trValues, ih]

theorem latestATR_len14 (b : Bar) (rest : List Bar) (h : rest.length = 13) :
    latestATR (b :: rest) = some ((trValues b.close rest).sum / 13) := by
  have hlen : (trValues b.close rest).length = 13 := by rw [trValues_length, h]
  simp only [latestATR, trColumn, tailN]
  have hdrop : ((none :: (trValues b.close rest).map some : List (Option ℚ)).length - ATR_PERIOD)
      = 0 := by
    simp [hlen, ATR_PERIOD]
  rw [hdrop, List.drop_zero]
  simp only [meanSkipNA, List.filterMap_cons_none, filterMap_id_map_some]
  norm_num
  refine ⟨fun he => by rw [he] at hlen; simp at hlen, ?_⟩
  rw [hlen]
  norm_num

theorem latestATR_len_ge15 (b : Bar) (rest : List Bar) (h : 14 ≤ rest.length) :
    latestATR (b :: rest) = some ((tailN 14 (trValues b.close rest)).sum / 14) := by
  have hlen : (trValues b.close rest).length = rest.length := trValues_length _ _
  simp only [latestATR, trColumn, tailN]
  have hdrop : ((none :: (trValues b.close rest).map some : List (Option ℚ)).length - ATR_PERIOD)
      = (rest.length - 14) + 1 := by
    simp only [List.length_cons, List.length_map, hlen, ATR_PERIOD]
    omega
  rw [hdrop, List.drop_succ_cons, ← List.map_drop]
  simp only [meanSkipNA, filterMap_id_map_some, List.length_drop, hlen]
  have h14 : rest.length - (rest.length - 14) = 14 := by omega
  rw [h14]
  norm_num

theorem latestATR_isSome (bars : List Bar) (h : ATR_PERIOD ≤ bars.length) :
    ∃ a, latestATR bars = some a := by
  match bars, h with
  | b :: rest, h =>
    have hr : 13 ≤ rest.length := by
      have := h; simp [ATR_PERIOD, List.length_cons] at this; omega
    rcases eq_or_lt_of_le hr with heq | hlt
    · exact ⟨_, latestATR_len14 b rest heq.symm⟩
    · exact ⟨_, latestATR_len_ge15 b rest hlt⟩

theorem last_close_isSome (bars : List Bar) (h : ATR_PERIOD ≤ bars.length) :
    ∃ c, (bars.map Bar.close).getLast? = some c := by
  have hne : bars.map Bar.close ≠ [] := by
    intro he
    have : bars = [] := by cases bars <;> simp_all
    simp [this, ATR_PERIOD] at h
  rw [← Option.isSome_iff_exists]
  exact List.getLast?_isSome.mpr hne

/-! ### theorems about position_management.py -/

theorem calc_pos_short (bars : List Bar) (h : bars.length < ATR_PERIOD) :
    calculate_position (some bars) = none := by
  simp only [calculate_position]
  rw [if_pos h]

theorem calc_pos_eq (bars : List Bar) (a c : ℚ)
    (hA : latestATR bars = some a) (hc : (bars.map Bar.close).getLast? = some c) :
    calculate_position (some bars) =
      if bars.length < ATR_PERIOD then none
      else if c ≤ 0 then none
      else if ATR_MULTIPLIER * a = 0 then none
      else some { price := c
                , atr := a
                , quantity := max 100 (Int.fdiv ⌊MAX_LOSS_PER_ETF / (ATR_MULTIPLIER * a)⌋ 100 * 100)
                , stop_loss_pct := ATR_MULTIPLIER * a / c * 100
                , max_loss := ATR_MULTIPLIER * a *
                    ((max 100 (Int.fdiv ⌊MAX_LOSS_PER_ETF / (ATR_MULTIPLIER * a)⌋ 100 * 100) : ℤ) : ℚ) } := by
  simp only [calculate_position]
  rw [hA, hc]

theorem trValues_demo (n : ℕ) :
    trValues (11 : ℚ) (List.replicate n ⟨12, 10, 11, 0⟩) = List.replicate n 2 := by
  induction n with
  | zero => rfl
  | succ m ih =>
    rw [List.replicate_succ, List.replicate_succ, trValues]
    refine congrArg₂ _ ?_ ih
    norm_num [trValue]

theorem trValues_flat (n : ℕ) :
    trValues (10 : ℚ) (List.replicate n ⟨10, 10, 10, 0⟩) = List.replicate n 0 := by
  induction n with
  | zero => rfl
  | succ m ih =>
    rw [List.replicate_succ, List.replicate_succ, trValues]
    refine congrArg₂ _ ?_ ih
    norm_num [trValue]

theorem latestATR_demoBars : latestATR demoBars = some 2 := by
  have h := latestATR_len14 (⟨12, 10, 11, 0⟩ : Bar) (List.replicate 13 ⟨12, 10, 11, 0⟩) (by simp)
  rw [show demoBars = (⟨12, 10, 11, 0⟩ : Bar) :: List.replicate 13 ⟨12, 10, 11, 0⟩ from rfl, h]
  rw [show Bar.close ⟨12, 10, 11, 0⟩ = (11 : ℚ) from rfl, trValues_demo]
  rw [List.sum_replicate]
  norm_num

theorem latestATR_flatBars : latestATR flatBars = some 0 := by
  have h := latestATR_len14 (⟨10, 10, 10, 0⟩ : Bar) (List.replicate 13 ⟨10, 10, 10, 0⟩) (by simp)
  rw [show flatBars = (⟨10, 10, 10, 0⟩ : Bar) :: List.replicate 13 ⟨10, 10, 10, 0⟩ from rfl, h]
  rw [show Bar.close ⟨10, 10, 10, 0⟩ = (10 : ℚ) from rfl, trValues_flat]
  rw [List.sum_replicate]
  norm_num

theorem last_close_demoBars : (demoBars.map Bar.close).getLast? = some 11 := by
  rw [show demoBars.map Bar.close = List.replicate 14 (11 : ℚ) from by
    simp [demoBars, List.map_replicate]]
  exact getLast?_replicate_succ 13 11

theorem last_close_flatBars : (flatBars.map Bar.close).getLast? = some 10 := by
  rw [show flatBars.map Bar.close = List.replicate 14 (10 : ℚ) from by
    simp [flatBars, List.map_replicate]]
  exact getLast?_replicate_succ 13 10

theorem calc_demoBars : calculate_position (some demoBars) = some demoRec := by
  rw [calc_pos_eq demoBars 2 11 latestATR_demoBars last_close_demoBars]
  rw [if_neg (by simp [demoBars, ATR_PERIOD])]
  rw [if_neg (by norm_num)]
  rw [if_neg (by norm_num [ATR_MULTIPLIER])]
  have hfl : ⌊MAX_LOSS_PER_ETF / (ATR_MULTIPLIER * 2)⌋ = (37 : ℤ) := by
    norm_num [MAX_LOSS_PER_ETF, ATR_MULTIPLIER]
  rw [hfl]
  rw [show Int.fdiv 37 100 * 100 = (0 : ℤ) from by decide]
  rw [show max (100 : ℤ) 0 = 100 from by decide]
  simp only [demoRec, Option.some.injEq, PositionRec.mk.injEq]
  norm_num [ATR_MULTIPLIER]

theorem calc_flatBars : calculate_position (some flatBars) = none := by
  rw [calc_pos_eq flatBars 0 10 latestATR_flatBars last_close_flatBars]
  rw [if_neg (by simp [flatBars, ATR_PERIOD])]
  rw [if_neg (by norm_num)]
  rw [if_pos (by norm_num [ATR_MULTIPLIER])]

/-- C3: once a recommendation is produced, the quantity is a positive multiple
of the lot size 100, equal to `floor(maxLoss / riskPerShare)` rounded down to
the nearest multiple of 100 with a floor of one lot, and the reported maximum
loss is exactly `riskPerShare * quantity`. -/
theorem position_quantity_lot_multiple (df : Option (List Bar)) (rec : PositionRec)
    (h : calculate_position df = some rec) :
    (0 < rec.quantity ∧ (100 : ℤ) ∣ rec.quantity) ∧
    (∃ m : ℤ, (100 : ℤ) ∣ m ∧ m ≤ ⌊MAX_LOSS_PER_ETF / (ATR_MULTIPLIER * rec.atr)⌋ ∧
      ⌊MAX_LOSS_PER_ETF / (ATR_MULTIPLIER * rec.atr)⌋ < m + 100 ∧ rec.quantity = max 100 m) ∧
    rec.max_loss = ATR_MULTIPLIER * rec.atr * (rec.quantity : ℚ) := by
  match df with
  | none => exact absurd h (by simp [calculate_position])
  | some bars =>
    by_cases hlen : bars.length < ATR_PERIOD
    · rw [calc_pos_short bars hlen] at h
      exact absurd h (by simp)
    · obtain ⟨a, hA⟩ := latestATR_isSome bars (le_of_not_lt hlen)
      obtain ⟨c, hc⟩ := last_close_isSome bars (le_of_not_lt hlen)
      rw [calc_pos_eq bars a c hA hc, if_neg hlen] at h
      by_cases hc0 : c ≤ 0
      · rw [if_pos hc0] at h; exact absurd h (by simp)
      · rw [if_neg hc0] at h
        by_cases hr : ATR_MULTIPLIER * a = 0
        · rw [if_pos hr] at h; exact absurd h (by simp)
        · rw [if_neg hr] at h
          have hinj := Option.some.inj h
          have hq : rec.quantity
              = max 100 (Int.fdiv ⌊MAX_LOSS_PER_ETF / (ATR_MULTIPLIER * a)⌋ 100 * 100) := by
            rw [← hinj]
          have hatr : rec.atr = a := by rw [← hinj]
          have hml : rec.max_loss = ATR_MULTIPLIER * a * (rec.quantity : ℚ) := by
            rw [hq, ← hinj]
          have hfd : Int.fdiv ⌊MAX_LOSS_PER_ETF / (ATR_MULTIPLIER * a)⌋ 100
              = ⌊MAX_LOSS_PER_ETF / (ATR_MULTIPLIER * a)⌋ / 100 :=
            Int.fdiv_eq_ediv _ (by norm_num)
          rw [hatr, hml, hq, hfd]
          refine ⟨⟨?_, ?_⟩,
            ⟨⌊MAX_LOSS_PER_ETF / (ATR_MULTIPLIER * a)⌋ / 100 * 100, ?_, ?_, ?_, rfl⟩, rfl⟩
          · exact lt_of_lt_of_le (by norm_num) (le_max_left _ _)
          · rcases max_choice (100 : ℤ)
              (⌊MAX_LOSS_PER_ETF / (ATR_MULTIPLIER * a)⌋ / 100 * 100) with hm | hm <;> rw [hm]
            exact dvd_mul_left _ _
          · exact dvd_mul_left _ _
          · omega
          · omega

/-- C3 witness: the properties hold of the concrete recommendation for
`demoBars` (ATR 2, risk per share 4, quantity one lot). -/
theorem position_quantity_lot_multiple_w :
    (0 < demoRec.quantity ∧ (100 : ℤ) ∣ demoRec.quantity) ∧
    (∃ m : ℤ, (100 : ℤ) ∣ m ∧ m ≤ ⌊MAX_LOSS_PER_ETF / (ATR_MULTIPLIER * demoRec.atr)⌋ ∧
      ⌊MAX_LOSS_PER_ETF / (ATR_MULTIPLIER * demoRec.atr)⌋ < m + 100 ∧ demoRec.quantity = max 100 m) ∧
    demoRec.max_loss = ATR_MULTIPLIER * demoRec.atr * (demoRec.quantity : ℚ) :=
  position_quantity_lot_multiple (some demoBars) demoRec calc_demoBars

/-- C8 counterexample: 14 flat bars give a defined ATR of 0 and a positive
close, none of the claim's three failure conditions, yet `calculate_position`
returns no recommendation (the quantity computation divides by the zero risk
per share). -/
theorem position_none_zero_atr_cex :
    flatBars.length = 14 ∧ ¬ flatBars.length < ATR_PERIOD ∧
    latestATR flatBars = some 0 ∧ latestATR flatBars ≠ none ∧
    (flatBars.map Bar.close).getLast? = some 10 ∧ ¬ ((10 : ℚ) ≤ 0) ∧
    calculate_position (some flatBars) = none :=
  ⟨by simp [flatBars], by simp [flatBars, ATR_PERIOD], latestATR_flatBars,
   by rw [latestATR_flatBars]; simp, last_close_flatBars, by norm_num, calc_flatBars⟩

/-- C8 as amended: `calculate_position` returns `None` exactly when the series
is shorter than the ATR window, the ATR is undefined, the latest close is
nonpositive, or the risk per share `ATR_MULTIPLIER * ATR` is zero; and every
produced recommendation carries `stopLossPct = riskPerShare / close * 100`. -/
theorem position_none_iff_amended (bars : List Bar) :
    (calculate_position (some bars) = none ↔
      bars.length < ATR_PERIOD ∨ latestATR bars = none ∨
      (∃ c, (bars.map Bar.close).getLast? = some c ∧ c ≤ 0) ∨
      (∃ a, latestATR bars = some a ∧ ATR_MULTIPLIER * a = 0)) ∧
    (∀ rec, calculate_position (some bars) = some rec →
      ∃ a c, latestATR bars = some a ∧ (bars.map Bar.close).getLast? = some c ∧
        rec.stop_loss_pct = ATR_MULTIPLIER * a / c * 100) := by
  by_cases hlen : bars.length < ATR_PERIOD
  · refine ⟨by simp [calc_pos_short bars hlen, hlen], ?_⟩
    intro rec hrec
    rw [calc_pos_short bars hlen] at hrec
    exact absurd hrec (by simp)
  · obtain ⟨a, hA⟩ := latestATR_isSome bars (le_of_not_lt hlen)
    obtain ⟨c, hc⟩ := last_close_isSome bars (le_of_not_lt hlen)
    rw [calc_pos_eq bars a c hA hc, if_neg hlen]
    by_cases hc0 : c ≤ 0
    · rw [if_pos hc0]
      exact ⟨⟨fun _ => Or.inr (Or.inr (Or.inl ⟨c, hc, hc0⟩)), fun _ => rfl⟩,
             fun rec hrec => absurd hrec (by simp)⟩
    · rw [if_neg hc0]
      by_cases hr : ATR_MULTIPLIER * a = 0
      · rw [if_pos hr]
        exact ⟨⟨fun _ => Or.inr (Or.inr (Or.inr ⟨a, hA, hr⟩)), fun _ => rfl⟩,
               fun rec hrec => absurd hrec (by simp)⟩
      · rw [if_neg hr]
        constructor
        · refine ⟨fun hcon => absurd hcon (by simp), fun hdisj => ?_⟩
          exfalso
          rcases hdisj with h1 | h2 | ⟨c2, hc2, hc20⟩ | ⟨a2, hA2, hr2⟩
          · exact hlen h1
          · rw [hA] at h2; exact Option.noConfusion h2
          · rw [hc] at hc2
            exact hc0 (by rw [Option.some.inj hc2]; exact hc20)
          · rw [hA] at hA2
            exact hr (by rw [Option.some.inj hA2]; exact hr2)
        · intro rec hrec
          refine ⟨a, c, hA, hc, ?_⟩
          rw [← Option.some.inj hrec]

/-- C8 witness: the amended failure condition evaluated at the flat series
(returns `None` through the zero-risk disjunct) and the stop-loss formula
evaluated at `demoBars` (`2*2/11*100`). -/
theorem position_none_iff_amended_w :
    calculate_position (some flatBars) = none ∧
    demoRec.stop_loss_pct = ATR_MULTIPLIER * 2 / 11 * 100 := by
  constructor
  · exact (position_none_iff_amended flatBars).1.mpr
      (Or.inr (Or.inr (Or.inr ⟨0, latestATR_flatBars, by norm_num [ATR_MULTIPLIER]⟩)))
  · obtain ⟨a, c, hA, hc, hs⟩ :=
      (position_none_iff_amended demoBars).2 demoRec calc_demoBars
    have ha2 : a = 2 := Option.some.inj (hA.symm.trans latestATR_demoBars)
    have hc11 : c = 11 := Option.some.inj (hc.symm.trans last_close_demoBars)
    rw [hs, ha2, hc11]

/-- C10 counterexample: a 14-bar series whose latest close is 0 passes the
length gate and has a defined 13-sample ATR, but no recommendation is
produced. -/
theorem position_14bar_cex :
    zeroCloseBars.length = 14 ∧ calculate_position (some zeroCloseBars) = none := by
  have hlen : zeroCloseBars.length = 14 := by simp [zeroCloseBars]
  obtain ⟨a, hA⟩ := latestATR_isSome zeroCloseBars (by rw [hlen]; norm_num [ATR_PERIOD])
  have hlast : (zeroCloseBars.map Bar.close).getLast? = some 0 := by
    rw [show zeroCloseBars.map Bar.close
        = List.replicate 13 (11 : ℚ) ++ [0] from by simp [zeroCloseBars, List.map_replicate]]
    exact List.getLast?_concat _
  refine ⟨hlen, ?_⟩
  rw [calc_pos_eq zeroCloseBars a 0 hA hlast]
  rw [if_neg (by rw [hlen]; norm_num [ATR_PERIOD]), if_pos (by norm_num)]

/-- C10 as amended: a series of exactly 14 bars passes the length gate; its
first true range is NaN, the ATR is the mean of the 13 defined true ranges,
and a recommendation based on that 13-sample ATR is produced provided the
latest close is positive and the risk per share is nonzero; with at least 15
bars the ATR is the mean of the trailing 14 true ranges. -/
theorem position_14bar_atr_amended :
    (∀ bars : List Bar, bars.length = 14 →
      ¬ bars.length < ATR_PERIOD ∧
      (trColumn bars).head? = some none ∧
      ∃ vs : List ℚ, trColumn bars = none :: vs.map some ∧ vs.length = 13 ∧
        latestATR bars = some (vs.sum / 13) ∧
        (∀ c, (bars.map Bar.close).getLast? = some c → 0 < c →
          ATR_MULTIPLIER * (vs.sum / 13) ≠ 0 →
          ∃ rec, calculate_position (some bars) = some rec ∧ rec.atr = vs.sum / 13)) ∧
    (∀ bars : List Bar, 15 ≤ bars.length →
      ∃ ws : List ℚ, tailN ATR_PERIOD (trColumn bars) = ws.map some ∧ ws.length = 14 ∧
        latestATR bars = some (ws.sum / 14)) := by
  constructor
  · intro bars hlen
    match bars, hlen with
    | b :: rest, hlen =>
      have hr : rest.length = 13 := by simp at hlen; omega
      have hnotlt : ¬ (b :: rest).length < ATR_PERIOD := by
        simp [ATR_PERIOD, hr]
      have hA := latestATR_len14 b rest hr
      refine ⟨hnotlt, by simp [trColumn], trValues b.close rest, rfl,
        by rw [trValues_length, hr], hA, ?_⟩
      intro c hc h0 hrisk
      rw [calc_pos_eq (b :: rest) _ c hA hc, if_neg hnotlt,
          if_neg (not_le_of_lt h0), if_neg hrisk]
      exact ⟨_, rfl, rfl⟩
  · intro bars hlen
    match bars, hlen with
    | b :: rest, hlen =>
      have hr : 14 ≤ rest.length := by simp at hlen; omega
      refine ⟨tailN 14 (trValues b.close rest), ?_, ?_, latestATR_len_ge15 b rest hr⟩
      · simp only [trColumn, tailN]
        have hvl : (trValues b.close rest).length = rest.length := trValues_length _ _
        have hdrop : ((none :: (trValues b.close rest).map some : List (Option ℚ)).length
            - ATR_PERIOD) = (rest.length - 14) + 1 := by
          simp only [List.length_cons, List.length_map, hvl, ATR_PERIOD]
          omega
        rw [hdrop, List.drop_succ_cons, ← List.map_drop, hvl]
      · rw [tailN, List.length_drop, trValues_length]
        omega

/-- C10 witness: the amended statement instantiated at the 14-bar `demoBars`
and the 15-bar `bars15`. -/
theorem position_14bar_atr_amended_w :
    (¬ demoBars.length < ATR_PERIOD ∧
      (trColumn demoBars).head? = some none ∧
      ∃ vs : List ℚ, trColumn demoBars = none :: vs.map some ∧ vs.length = 13 ∧
        latestATR demoBars = some (vs.sum / 13) ∧
        (∀ c, (demoBars.map Bar.close).getLast? = some c → 0 < c →
          ATR_MULTIPLIER * (vs.sum / 13) ≠ 0 →
          ∃ rec, calculate_position (some demoBars) = some rec ∧ rec.atr = vs.sum / 13)) ∧
    (∃ ws : List ℚ, tailN ATR_PERIOD (trColumn bars15) = ws.map some ∧ ws.length = 14 ∧
      latestATR bars15 = some (ws.sum / 14)) :=
  ⟨position_14bar_atr_amended.1 demoBars (by simp [demoBars]),
   position_14bar_atr_amended.2 bars15 (by simp [bars15])⟩

/-! ### theorems about etf_trend_evaluation.py -/

theorem macd_bullish_iff (d e : ℚ) : macd_bullish d e = true ↔ (0 < d ∧ 0 < e) := by
  simp [macd_bullish]

theorem total_score_as_weighted (a d e r : ℚ) :
    total_score a d e r
      = 0.4 * (min a 50 / 50 * 100)
        + 0.3 * (if 0 < d ∧ 0 < e then (100 : ℚ) else 0)
        + 0.3 * (max 0 ((r - 50) / 30 * 100)) := by
  simp only [total_score, adx_score, macd_score, rsi_score]
  rw [if_congr (macd_bullish_iff d e) rfl rfl]
  ring

theorem evaluate_trend_some (rows : List TrendRow) (code : String) (ev : TrendEval)
    (h : evaluate_trend (some rows) code = some ev) :
    ∃ latest, rows.getLast? = some latest ∧
      ev = { etf_code := code, adx_value := latest.adx
           , macd_bull := macd_bullish latest.macd_dif latest.macd_dea
           , rsi_value := latest.rsi
           , score := total_score latest.adx latest.macd_dif latest.macd_dea latest.rsi } := by
  simp only [evaluate_trend] at h
  by_cases hlen : rows.length < 30
  · rw [if_pos hlen] at h
    exact absurd h (by simp)
  · rw [if_neg hlen] at h
    cases hl : rows.getLast? with
    | none => rw [hl] at h; exact absurd h (by simp)
    | some latest =>
      rw [hl] at h
      exact ⟨latest, rfl, (Option.some.inj h).symm⟩

theorem evaluate_trend_of_ge30 (rows : List TrendRow) (code : String) (h : 30 ≤ rows.length) :
    ∃ latest, rows.getLast? = some latest ∧
      evaluate_trend (some rows) code
        = some { etf_code := code, adx_value := latest.adx
               , macd_bull := macd_bullish latest.macd_dif latest.macd_dea
               , rsi_value := latest.rsi
               , score := total_score latest.adx latest.macd_dif latest.macd_dea latest.rsi } := by
  have hne : rows ≠ [] := by
    intro he
    rw [he] at h
    simp at h
  obtain ⟨latest, hl⟩ := Option.isSome_iff_exists.mp (List.getLast?_isSome.mpr hne)
  refine ⟨latest, hl, ?_⟩
  simp only [evaluate_trend]
  rw [if_neg (not_lt.mpr h), hl]

theorem eval_rows30Hot : evaluate_trend (some rows30Hot) codeX = some evHot := by
  have hb : macd_bullish hotRow.macd_dif hotRow.macd_dea = true := by
    simp [macd_bullish, hotRow]
  have hs : total_score hotRow.adx hotRow.macd_dif hotRow.macd_dea hotRow.rsi = 120 := by
    rw [show hotRow.adx = (50 : ℚ) from rfl, show hotRow.macd_dif = (1 : ℚ) from rfl,
        show hotRow.macd_dea = (1 : ℚ) from rfl, show hotRow.rsi = (100 : ℚ) from rfl,
        total_score_as_weighted]
    norm_num
  simp only [evaluate_trend]
  rw [if_neg (by simp [rows30Hot])]
  rw [show rows30Hot.getLast? = some hotRow from getLast?_replicate_succ 29 hotRow]
  show some { etf_code := codeX, adx_value := hotRow.adx
            , macd_bull := macd_bullish hotRow.macd_dif hotRow.macd_dea
            , rsi_value := hotRow.rsi
            , score := total_score hotRow.adx hotRow.macd_dif hotRow.macd_dea hotRow.rsi }
      = some evHot
  rw [hb, hs]
  rfl

/-- C1 counterexample: a 30-bar store whose latest ADX is 50, both MACD lines
positive and RSI 100 (all attainable values, RSI within [0,100]) scores 120,
strictly above 100: the RSI sub-score is not capped at 100. -/
theorem trend_score_exceeds_100_cex :
    rows30Hot.length = 30 ∧ (0 : ℚ) ≤ evHot.rsi_value ∧ evHot.rsi_value ≤ 100 ∧
    evaluate_trend (some rows30Hot) codeX = some evHot ∧ 100 < evHot.score :=
  ⟨by simp [rows30Hot], by norm_num [evHot], by norm_num [evHot], eval_rows30Hot,
   by norm_num [evHot]⟩

/-- C1 as amended: with a nonnegative ADX and RSI in [0,100], the composite
trend score lies in [0, 120]; the upper bound 100 claimed by the specification
does not hold because the RSI sub-score saturates at 500/3, not 100. -/
theorem trend_score_range_amended (rows : List TrendRow) (code : String) (ev : TrendEval)
    (h : evaluate_trend (some rows) code = some ev) (latest : TrendRow)
    (hl : rows.getLast? = some latest) (hadx : 0 ≤ latest.adx)
    (h0 : 0 ≤ latest.rsi) (h100 : latest.rsi ≤ 100) :
    0 ≤ ev.score ∧ ev.score ≤ 120 := by
  obtain ⟨latest2, hl2, hev⟩ := evaluate_trend_some rows code ev h
  have heq : latest2 = latest := Option.some.inj (hl2.symm.trans hl)
  subst heq
  have hsc : ev.score
      = total_score latest2.adx latest2.macd_dif latest2.macd_dea latest2.rsi := by
    rw [hev]
  have hA0 : 0 ≤ adx_score latest2.adx := by
    simp only [adx_score]
    have hm : (0 : ℚ) ≤ min latest2.adx 50 := le_min hadx (by norm_num)
    linarith
  have hA1 : adx_score latest2.adx ≤ 100 := by
    simp only [adx_score]
    have hm : min latest2.adx 50 ≤ 50 := min_le_right _ _
    linarith
  have hM : macd_score latest2.macd_dif latest2.macd_dea = 0
      ∨ macd_score latest2.macd_dif latest2.macd_dea = 100 := by
    simp only [macd_score]
    by_cases hb : macd_bullish latest2.macd_dif latest2.macd_dea <;> simp [hb]
  have hR0 : 0 ≤ rsi_score latest2.rsi := le_max_left 0 _
  have hR1 : rsi_score latest2.rsi ≤ 500 / 3 := by
    simp only [rsi_score]
    refine max_le (by norm_num) ?_
    linarith
  rw [hsc]
  simp only [total_score]
  rcases hM with hM | hM <;> rw [hM] <;> constructor <;> linarith

/-- C1 witness: the amended bounds evaluated at the 120-scoring store. -/
theorem trend_score_range_amended_w : 0 ≤ evHot.score ∧ evHot.score ≤ 120 :=
  trend_score_range_amended rows30Hot codeX evHot eval_rows30Hot hotRow
    (getLast?_replicate_succ 29 hotRow) (by norm_num [hotRow]) (by norm_num [hotRow])
    (by norm_num [hotRow])

/-- C5: with at least 30 bars the composite score is exactly
`0.4*adxScore + 0.3*macdScore + 0.3*rsiScore` of the latest row, with the three
sub-scores as specified; with fewer than 30 bars no score is produced. -/
theorem trend_score_formula (rows : List TrendRow) (code : String) :
    (30 ≤ rows.length →
      ∃ ev latest, evaluate_trend (some rows) code = some ev ∧
        rows.getLast? = some latest ∧
        ev.score = 0.4 * (min latest.adx 50 / 50 * 100)
          + 0.3 * (if 0 < latest.macd_dif ∧ 0 < latest.macd_dea then (100 : ℚ) else 0)
          + 0.3 * (max 0 ((latest.rsi - 50) / 30 * 100))) ∧
    (rows.length < 30 → evaluate_trend (some rows) code = none) := by
  constructor
  · intro h
    obtain ⟨latest, hl, hev⟩ := evaluate_trend_of_ge30 rows code h
    refine ⟨_, latest, hev, hl, ?_⟩
    show total_score latest.adx latest.macd_dif latest.macd_dea latest.rsi = _
    exact total_score_as_weighted _ _ _ _
  · intro h
    simp only [evaluate_trend]
    rw [if_pos h]

/-- C5 witness: the formula instantiated on the 30-bar strong-trend store and
the length gate on a 5-bar store. -/
theorem trend_score_formula_w :
    (∃ ev latest, evaluate_trend (some rows30Hot) codeX = some ev ∧
      rows30Hot.getLast? = some latest ∧
      ev.score = 0.4 * (min latest.adx 50 / 50 * 100)
        + 0.3 * (if 0 < latest.macd_dif ∧ 0 < latest.macd_dea then (100 : ℚ) else 0)
        + 0.3 * (max 0 ((latest.rsi - 50) / 30 * 100))) ∧
    evaluate_trend (some (List.replicate 5 hotRow)) codeX = none :=
  ⟨(trend_score_formula rows30Hot codeX).1 (by simp [rows30Hot]),
   (trend_score_formula (List.replicate 5 hotRow) codeX).2 (by simp)⟩

theorem eval_rows30Hot_gen (code : String) :
    evaluate_trend (some rows30Hot) code
      = some ({ etf_code := code, adx_value := 50, macd_bull := true
              , rsi_value := 100, score := 120 } : TrendEval) := by
  have hb : macd_bullish hotRow.macd_dif hotRow.macd_dea = true := by
    simp [macd_bullish, hotRow]
  have hs : total_score hotRow.adx hotRow.macd_dif hotRow.macd_dea hotRow.rsi = 120 := by
    rw [show hotRow.adx = (50 : ℚ) from rfl, show hotRow.macd_dif = (1 : ℚ) from rfl,
        show hotRow.macd_dea = (1 : ℚ) from rfl, show hotRow.rsi = (100 : ℚ) from rfl,
        total_score_as_weighted]
    norm_num
  simp only [evaluate_trend]
  rw [if_neg (by simp [rows30Hot])]
  rw [show rows30Hot.getLast? = some hotRow from getLast?_replicate_succ 29 hotRow]
  show some ({ etf_code := code, adx_value := hotRow.adx
             , macd_bull := macd_bullish hotRow.macd_dif hotRow.macd_dea
             , rsi_value := hotRow.rsi
             , score := total_score hotRow.adx hotRow.macd_dif hotRow.macd_dea hotRow.rsi } : TrendEval)
      = some ({ etf_code := code, adx_value := 50, macd_bull := true
              , rsi_value := 100, score := 120 } : TrendEval)
  rw [hb, hs]
  rfl

theorem eval_rows30Cold_gen (code : String) :
    evaluate_trend (some rows30Cold) code
      = some ({ etf_code := code, adx_value := 0, macd_bull := false
              , rsi_value := 50, score := 0 } : TrendEval) := by
  have hb : macd_bullish (-1 : ℚ) 0 = false := by
    simp [macd_bullish]
  have hs : total_score 0 (-1) 0 50 = 0 := by
    rw [total_score_as_weighted]
    norm_num
  simp only [evaluate_trend]
  rw [if_neg (by simp [rows30Cold])]
  rw [show rows30Cold.getLast? = some ⟨0, -1, 0, 50⟩ from getLast?_replicate_succ 29 _]
  show some ({ etf_code := code, adx_value := (0 : ℚ)
             , macd_bull := macd_bullish (-1 : ℚ) 0
             , rsi_value := (50 : ℚ)
             , score := total_score 0 (-1) 0 50 } : TrendEval)
      = some ({ etf_code := code, adx_value := 0, macd_bull := false
              , rsi_value := 50, score := 0 } : TrendEval)
  rw [hb, hs]

theorem successRecord_codeA : successRecord fetchDemo codeA = some evHotA := by
  have h1 : fetchDemo codeA = some rows30Hot := by
    simp [fetchDemo]
  simp only [successRecord, h1, calculate_technical_indicators]
  rw [if_neg (by simp [rows30Hot])]
  exact eval_rows30Hot_gen codeA

theorem successRecord_codeB : successRecord fetchDemo codeB = some evCold := by
  have hBA : ¬ codeB = codeA := by decide
  have h1 : fetchDemo codeB = some rows30Cold := by
    simp [fetchDemo, hBA]
  simp only [successRecord, h1, calculate_technical_indicators]
  rw [if_neg (by simp [rows30Cold])]
  exact eval_rows30Cold_gen codeB

theorem successRecord_codeC : successRecord fetchDemo codeC = none := by
  have hCA : ¬ codeC = codeA := by decide
  have hCB : ¬ codeC = codeB := by decide
  have h1 : fetchDemo codeC = none := by
    simp [fetchDemo, hCA, hCB]
  simp only [successRecord, h1, calculate_technical_indicators]

theorem successRecords_demo : successRecords fetchDemo codesDemo = [evHotA, evCold] := by
  simp only [successRecords, codesDemo, List.filterMap_cons, List.filterMap_nil,
    successRecord_codeA, successRecord_codeB, successRecord_codeC]

theorem runner_body_eq (fetch : String → Option (List TrendRow)) (acc : List TrendEval)
    (c : String) :
    (match calculate_technical_indicators (fetch c) with
     | none => acc
     | some d =>
       match evaluate_trend (some d) c with
       | none => acc
       | some ev => acc ++ [ev])
    = acc ++ (successRecord fetch c).toList := by
  simp only [successRecord]
  cases calculate_technical_indicators (fetch c) with
  | none => simp
  | some d =>
    cases hev : evaluate_trend (some d) c with
    | none => simp [hev]
    | some ev => simp [hev]

theorem fold_step_eq (fetch : String → Option (List TrendRow)) (codes : List String) :
    ∀ acc : List TrendEval,
      codes.foldl (fun acc etf_code =>
        match calculate_technical_indicators (fetch etf_code) with
        | none => acc
        | some d =>
          match evaluate_trend (some d) etf_code with
          | none => acc
          | some ev => acc ++ [ev]) acc
      = acc ++ successRecords fetch codes := by
  induction codes with
  | nil => intro acc; simp [successRecords]
  | cons c cs ih =>
    intro acc
    simp only [List.foldl_cons]
    rw [runner_body_eq fetch acc c, ih (acc ++ (successRecord fetch c).toList)]
    cases hsr : successRecord fetch c <;>
      simp [successRecords, List.filterMap_cons, hsr, List.append_assoc]

/-- C9: the batch runner returns no collection exactly when no instrument
succeeds; otherwise the collection is a permutation of the per-instrument
records of the successful instruments (one record each, failed fetches and
short histories skipped) and is ordered by composite score descending. -/
theorem evaluate_multiple_sorted (fetch : String → Option (List TrendRow))
    (codes : List String) :
    (evaluate_multiple_etfs fetch codes = none ↔ successRecords fetch codes = []) ∧
    (∀ out, evaluate_multiple_etfs fetch codes = some out →
      out.Perm (successRecords fetch codes) ∧ List.Pairwise scoreGE out) := by
  have hfold := fold_step_eq fetch codes []
  rw [List.nil_append] at hfold
  simp only [evaluate_multiple_etfs, hfold]
  by_cases hemp : (successRecords fetch codes).isEmpty
  · rw [if_pos hemp]
    refine ⟨⟨fun _ => List.isEmpty_iff.mp hemp, fun _ => rfl⟩, ?_⟩
    intro out hout
    exact absurd hout (by simp)
  · rw [if_neg hemp]
    constructor
    · refine ⟨fun hcon => absurd hcon (by simp), fun hnil => ?_⟩
      exact absurd (List.isEmpty_iff.mpr hnil) hemp
    · intro out hout
      rw [← Option.some.inj hout]
      exact ⟨List.perm_insertionSort scoreGE _, List.sorted_insertionSort scoreGE _⟩

theorem evaluate_demoBatch :
    evaluate_multiple_etfs fetchDemo codesDemo = some [evHotA, evCold] := by
  have hfold := fold_step_eq fetchDemo codesDemo []
  rw [List.nil_append, successRecords_demo] at hfold
  simp only [evaluate_multiple_etfs, hfold]
  rw [if_neg (by simp)]
  have hsort : sortByScoreDesc [evHotA, evCold] = [evHotA, evCold] := by
    simp only [sortByScoreDesc, List.insertionSort, List.orderedInsert]
    rw [if_pos (show scoreGE evHotA evCold by
      simp only [scoreGE, evHotA, evCold]
      norm_num)]
  rw [hsort]

/-- C9 witness: on the demo batch (fetch failure for instrument C between two
successes) the returned collection is a sorted permutation of the success
records. -/
theorem evaluate_multiple_sorted_w :
    [evHotA, evCold].Perm (successRecords fetchDemo codesDemo) ∧
    List.Pairwise scoreGE [evHotA, evCold] :=
  (evaluate_multiple_sorted fetchDemo codesDemo).2 [evHotA, evCold] evaluate_demoBatch

/-! ### theorems about etf_risk_monitor.py -/

theorem idxmaxAux_spec : ∀ (l : List (ℤ × ℚ)) (bd : ℤ) (bv : ℚ),
    (idxmaxAux bd bv l = bd ∧ ∀ p ∈ l, p.2 ≤ bv) ∨
    (∃ l1 p l2, l = l1 ++ p :: l2 ∧ idxmaxAux bd bv l = p.1 ∧ bv < p.2 ∧
      (∀ q ∈ l1, q.2 < p.2) ∧ (∀ q ∈ l2, q.2 ≤ p.2)) := by
  intro l
  induction l with
  | nil => intro bd bv; exact Or.inl ⟨rfl, by simp⟩
  | cons dv rest ih =>
    intro bd bv
    obtain ⟨d, v⟩ := dv
    by_cases hlt : bv < v
    · rw [show idxmaxAux bd bv ((d, v) :: rest) = idxmaxAux d v rest from by
        simp [idxmaxAux, hlt]]
      rcases ih d v with ⟨hres, hall⟩ | ⟨l1, p, l2, heq, hres, hvp, h1, h2⟩
      · refine Or.inr ⟨[], (d, v), rest, by simp, hres, hlt, by simp, hall⟩
      · refine Or.inr ⟨(d, v) :: l1, p, l2, by rw [heq, List.cons_append], hres,
          lt_trans hlt hvp, ?_, h2⟩
        intro q hq
        rcases List.mem_cons.mp hq with rfl | hq2
        · exact hvp
        · exact h1 q hq2
    · rw [show idxmaxAux bd bv ((d, v) :: rest) = idxmaxAux bd bv rest from by
        simp [idxmaxAux, hlt]]
      rcases ih bd bv with ⟨hres, hall⟩ | ⟨l1, p, l2, heq, hres, hvp, h1, h2⟩
      · refine Or.inl ⟨hres, ?_⟩
        intro p hp
        rcases List.mem_cons.mp hp with rfl | hp2
        · exact le_of_not_lt hlt
        · exact hall p hp2
      · refine Or.inr ⟨(d, v) :: l1, p, l2, by rw [heq, List.cons_append], hres, hvp, ?_, h2⟩
        intro q hq
        rcases List.mem_cons.mp hq with rfl | hq2
        · exact lt_of_le_of_lt (le_of_not_lt hlt) hvp
        · exact h1 q hq2

theorem idxmaxAux_last : ∀ (l : List (ℤ × ℚ)) (q : ℤ × ℚ) (bd : ℤ) (bv : ℚ),
    bv < q.2 → (∀ p ∈ l, p.2 < q.2) → idxmaxAux bd bv (l ++ [q]) = q.1 := by
  intro l
  induction l with
  | nil =>
    intro q bd bv hq _
    obtain ⟨dq, vq⟩ := q
    simp only [List.nil_append, idxmaxAux]
    rw [if_pos hq]
  | cons dv rest ih =>
    intro q bd bv hq hl
    obtain ⟨d, v⟩ := dv
    by_cases hlt : bv < v
    · rw [show idxmaxAux bd bv (((d, v) :: rest) ++ [q]) = idxmaxAux d v (rest ++ [q]) from by
        simp [idxmaxAux, hlt]]
      exact ih q d v (hl (d, v) (by simp)) (fun p hp => hl p (by simp [hp]))
    · rw [show idxmaxAux bd bv (((d, v) :: rest) ++ [q]) = idxmaxAux bd bv (rest ++ [q]) from by
        simp [idxmaxAux, hlt]]
      exact ih q bd bv hq (fun p hp => hl p (by simp [hp]))

theorem idxmax5 (d0 d1 d2 d3 d4 : ℤ) (v0 v1 v2 v3 v4 : ℚ)
    (h0 : d0 ≠ d4) (h1 : d1 ≠ d4) (h2 : d2 ≠ d4) (h3 : d3 ≠ d4) :
    idxmax 0 [(d0, v0), (d1, v1), (d2, v2), (d3, v3), (d4, v4)] = d4 ↔
      (v0 < v4 ∧ v1 < v4 ∧ v2 < v4 ∧ v3 < v4) := by
  constructor
  · intro hres
    rw [show idxmax 0 [(d0, v0), (d1, v1), (d2, v2), (d3, v3), (d4, v4)]
        = idxmaxAux d0 v0 [(d1, v1), (d2, v2), (d3, v3), (d4, v4)] from rfl] at hres
    rcases idxmaxAux_spec [(d1, v1), (d2, v2), (d3, v3), (d4, v4)] d0 v0 with
      ⟨hr, _⟩ | ⟨l1, p, l2, heq, hr, hvp, hall1, hall2⟩
    · exact absurd (hres.symm.trans hr).symm h0
    · have hpd : p.1 = d4 := (hr.symm.trans hres).symm.symm
      rcases l1 with _ | ⟨q1, l1⟩
      · simp only [List.nil_append, List.cons.injEq] at heq
        obtain ⟨rfl, _⟩ := heq
        exact absurd hpd h1
      rcases l1 with _ | ⟨q2, l1⟩
      · simp only [List.cons_append, List.nil_append, List.cons.injEq] at heq
        obtain ⟨rfl, rfl, _⟩ := heq
        exact absurd hpd h2
      rcases l1 with _ | ⟨q3, l1⟩
      · simp only [List.cons_append, List.nil_append, List.cons.injEq] at heq
        obtain ⟨rfl, rfl, rfl, _⟩ := heq
        exact absurd hpd h3
      rcases l1 with _ | ⟨q4, l1⟩
      · simp only [List.cons_append, List.nil_append, List.cons.injEq] at heq
        obtain ⟨rfl, rfl, rfl, rfl, rfl⟩ := heq
        refine ⟨hvp, ?_, ?_, ?_⟩
        · exact hall1 (d1, v1) (by simp)
        · exact hall1 (d2, v2) (by simp)
        · exact hall1 (d3, v3) (by simp)
      · exfalso
        have hlen := congrArg List.length heq
        simp [List.length_append] at hlen
  · rintro ⟨ha, hb, hc, hd⟩
    rw [show idxmax 0 [(d0, v0), (d1, v1), (d2, v2), (d3, v3), (d4, v4)]
        = idxmaxAux d0 v0 ([(d1, v1), (d2, v2), (d3, v3)] ++ [(d4, v4)]) from rfl]
    refine idxmaxAux_last [(d1, v1), (d2, v2), (d3, v3)] (d4, v4) d0 v0 ha ?_
    intro p hp
    simp only [List.mem_cons, List.not_mem_nil, or_false] at hp
    rcases hp with rfl | rfl | rfl
    · exact hb
    · exact hc
    · exact hd

/-- C2 counterexample: with a tied price maximum (dates 1 and 4), pandas
`idxmax` takes the first occurrence, so the code does not flag a divergence;
under the last-occurrence tie-break the specification prescribes, the same
window would be flagged. -/
theorem divergence_tiebreak_cex :
    topDivergence cexPrice cexOsc = false ∧
    topDivergenceSpecLastOcc cexPrice cexOsc = true := by
  have htp : tailN 5 cexPrice = cexPrice := rfl
  have hto : tailN 5 cexOsc = cexOsc := rfl
  have hip : idxmax 0 cexPrice = 1 := by
    norm_num [cexPrice, idxmax, idxmaxAux]
  have hio : idxmax 0 cexOsc = 0 := by
    norm_num [cexOsc, idxmax, idxmaxAux]
  have hlp : idxmaxLastOcc 0 cexPrice = 4 := by
    norm_num [cexPrice, idxmaxLastOcc, idxmaxLastAux]
  have hlo : idxmaxLastOcc 0 cexOsc = 0 := by
    norm_num [cexOsc, idxmaxLastOcc, idxmaxLastAux]
  constructor
  · simp only [topDivergence, htp, hto, hip, hio]
    rfl
  · simp only [topDivergenceSpecLastOcc, htp, hto, hlp, hlo]
    rfl

/-- C2 as amended: over a five-date window with distinct dates, the
top-divergence flag is true iff the price arg-max is the last date and the
oscillator arg-max is not, where the arg-max uses pandas' first-occurrence
tie-break — equivalently, iff the last price strictly exceeds every earlier
price in the window while the last oscillator value does not strictly exceed
every earlier oscillator value. -/
theorem divergence_first_occurrence_amended
    (price osc : List (ℤ × ℚ)) (d0 d1 d2 d3 d4 e0 e1 e2 e3 e4 : ℤ)
    (v0 v1 v2 v3 v4 w0 w1 w2 w3 w4 : ℚ)
    (hp : tailN 5 price = [(d0, v0), (d1, v1), (d2, v2), (d3, v3), (d4, v4)])
    (ho : tailN 5 osc = [(e0, w0), (e1, w1), (e2, w2), (e3, w3), (e4, w4)])
    (hd0 : d0 ≠ d4) (hd1 : d1 ≠ d4) (hd2 : d2 ≠ d4) (hd3 : d3 ≠ d4)
    (he0 : e0 ≠ e4) (he1 : e1 ≠ e4) (he2 : e2 ≠ e4) (he3 : e3 ≠ e4) :
    topDivergence price osc = true ↔
      ((v0 < v4 ∧ v1 < v4 ∧ v2 < v4 ∧ v3 < v4) ∧
       ¬(w0 < w4 ∧ w1 < w4 ∧ w2 < w4 ∧ w3 < w4)) := by
  simp only [topDivergence, hp, ho]
  have hlp : lastIndex 0 [(d0, v0), (d1, v1), (d2, v2), (d3, v3), (d4, v4)] = d4 := rfl
  have hlo : lastIndex 0 [(e0, w0), (e1, w1), (e2, w2), (e3, w3), (e4, w4)] = e4 := rfl
  rw [hlp, hlo]
  rw [Bool.and_eq_true]
  simp only [Bool.not_eq_true', decide_eq_true_eq, decide_eq_false_iff_not]
  rw [idxmax5 d0 d1 d2 d3 d4 v0 v1 v2 v3 v4 hd0 hd1 hd2 hd3,
      idxmax5 e0 e1 e2 e3 e4 w0 w1 w2 w3 w4 he0 he1 he2 he3]

/-- C2 witness: the amended characterisation applied to a window whose price
peaks strictly at the last date while the oscillator peaked earlier: the flag
fires. -/
theorem divergence_first_occurrence_amended_w : topDivergence wPrice wOsc = true :=
  (divergence_first_occurrence_amended wPrice wOsc 0 1 2 3 4 0 1 2 3 4
    1 2 3 4 9 7 1 1 1 1 rfl rfl
    (by decide) (by decide) (by decide) (by decide)
    (by decide) (by decide) (by decide) (by decide)).mpr
    ⟨⟨by norm_num, by norm_num, by norm_num, by norm_num⟩,
     by rintro ⟨hcon, _⟩; norm_num at hcon⟩

/-- C6 counterexample: a nine-point series exhibiting the divergence pattern
(price maximum strictly at the last date, OBV maximum earlier).  Nine points
are at least `max(requiredPriorWindow, 5)` for the OBV oscillator, yet
`check_obv_divergence` returns false unconditionally: its gate is the
hardcoded `len(df) < 10`, not `max(requiredPriorWindow, 5)`, and differs from
the RSI gate `len(df) < 19`. -/
theorem divergence_min_length_cex :
    ex9.length = 9 ∧ 5 ≤ ex9.length ∧ check_obv_divergence ex9 = false ∧
    topDivergence (closeSeries ex9) (obvSeries ex9) = true := by
  have hclose : closeSeries ex9
      = [(0, 1), (1, 1), (2, 1), (3, 1), (4, 5), (5, 10), (6, 4), (7, 3), (8, 11)] := by
    norm_num [closeSeries, ex9]
  have hobv : obvSeries ex9
      = [(0, 1), (1, 2), (2, 3), (3, 4), (4, 5), (5, 105), (6, 104), (7, 103), (8, 104)] := by
    norm_num [obvSeries, ex9, obvDeltaColumn, obvDeltas, obvRow, cumsumFrom,
      List.zip_cons_cons, List.zip_nil_right]
  have htp : tailN 5 (closeSeries ex9) = [(4, 5), (5, 10), (6, 4), (7, 3), (8, 11)] := by
    rw [hclose]
    rfl
  have hto : tailN 5 (obvSeries ex9) = [(4, 5), (5, 105), (6, 104), (7, 103), (8, 104)] := by
    rw [hobv]
    rfl
  have hip : idxmax 0 [((4 : ℤ), (5 : ℚ)), (5, 10), (6, 4), (7, 3), (8, 11)] = 8 := by
    norm_num [idxmax, idxmaxAux]
  have hio : idxmax 0 [((4 : ℤ), (5 : ℚ)), (5, 105), (6, 104), (7, 103), (8, 104)] = 5 := by
    norm_num [idxmax, idxmaxAux]
  refine ⟨rfl, by norm_num [ex9], ?_, ?_⟩
  · simp only [check_obv_divergence]
    rw [if_pos (by norm_num [ex9])]
  · simp only [topDivergence, htp, hto, hip, hio]
    rfl

/-- C6 as amended: the RSI-based check returns false whenever fewer than
`RSI_PERIOD + 5 = 19` points exist and otherwise evaluates the divergence
window; the OBV-based check returns false whenever fewer than 10 points exist
and otherwise evaluates the divergence window — the two minimum-length gates
are different constants, not one shared `max(requiredPriorWindow, 5)` rule. -/
theorem divergence_min_length_amended :
    (∀ df rsi : List (ℤ × ℚ), df.length < RSI_PERIOD + 5 →
      check_rsi_divergence df rsi = false) ∧
    (∀ df rsi : List (ℤ × ℚ), RSI_PERIOD + 5 ≤ df.length →
      check_rsi_divergence df rsi = topDivergence df rsi) ∧
    (∀ df : List (ℤ × ℚ × ℚ), df.length < 10 → check_obv_divergence df = false) ∧
    (∀ df : List (ℤ × ℚ × ℚ), 10 ≤ df.length →
      check_obv_divergence df = topDivergence (closeSeries df) (obvSeries df)) := by
  refine ⟨fun df rsi h => ?_, fun df rsi h => ?_, fun df h => ?_, fun df h => ?_⟩
  · simp only [check_rsi_divergence]
    rw [if_pos h]
  · simp only [check_rsi_divergence]
    rw [if_neg (not_lt.mpr h)]
  · simp only [check_obv_divergence]
    rw [if_pos h]
  · simp only [check_obv_divergence]
    rw [if_neg (not_lt.mpr h)]

/-- C6 witness: the four amended gate facts evaluated at concrete 18-, 19-,
9- and 10-point frames. -/
theorem divergence_min_length_amended_w :
    check_rsi_divergence df18 rsiFlat = false ∧
    check_rsi_divergence df19 rsiFlat = topDivergence df19 rsiFlat ∧
    check_obv_divergence ex9 = false ∧
    check_obv_divergence ex10 = topDivergence (closeSeries ex10) (obvSeries ex10) :=
  ⟨divergence_min_length_amended.1 df18 rsiFlat (by norm_num [df18, RSI_PERIOD]),
   divergence_min_length_amended.2.1 df19 rsiFlat (by norm_num [df19, RSI_PERIOD]),
   divergence_min_length_amended.2.2.1 ex9 (by norm_num [ex9]),
   divergence_min_length_amended.2.2.2 ex10 (by norm_num [ex10])⟩

theorem length_ewmaFrom (a : ℚ) : ∀ (l : List ℚ) (prev : ℚ),
    (ewmaFrom a prev l).length = l.length := by
  intro l
  induction l with
  | nil => intro prev; rfl
  | cons x xs ih => intro prev; simp [ewmaFrom, ih]

theorem length_ewmaAdjFalse (w : ℕ) (l : List ℚ) :
    (ewmaAdjFalse w l).length = l.length := by
  cases l with
  | nil => rfl
  | cons x xs => simp [ewmaAdjFalse, length_ewmaFrom]

theorem maskFirst_getD : ∀ (l : List ℚ) (k i : ℕ), k ≤ i → i < l.length →
    (maskFirst k l).getD i none = some (l.getD i 0) := by
  intro l
  induction l with
  | nil => intro k i _ h2; simp at h2
  | cons x xs ih =>
    intro k i h1 h2
    cases k with
    | zero =>
      cases i with
      | zero => rfl
      | succ j =>
        simp only [maskFirst, List.getD_cons_succ]
        exact ih 0 j (by omega) (by simp at h2; omega)
    | succ m =>
      cases i with
      | zero => omega
      | succ j =>
        simp only [maskFirst, List.getD_cons_succ]
        exact ih m j (by omega) (by simp at h2; omega)

theorem maskFirst_count : ∀ (l : List ℚ) (k : ℕ),
    definedCount (maskFirst k l) = l.length - min l.length k := by
  intro l
  induction l with
  | nil => intro k; simp [maskFirst, definedCount]
  | cons x xs ih =>
    intro k
    cases k with
    | zero =>
      have h1 := ih 0
      simp only [definedCount] at h1 ⊢
      simp only [maskFirst]
      rw [show List.filterMap id (some x :: maskFirst 0 xs)
          = x :: List.filterMap id (maskFirst 0 xs) from by simp]
      rw [List.length_cons, h1, List.length_cons]
      omega
    | succ m =>
      have h1 := ih m
      simp only [definedCount] at h1 ⊢
      simp only [maskFirst]
      rw [show List.filterMap id ((none : Option ℚ) :: maskFirst m xs)
          = List.filterMap id (maskFirst m xs) from by simp]
      rw [h1, List.length_cons]
      omega

theorem definedCount_emaTA (w : ℕ) (closes : List ℚ) :
    definedCount (emaTA w closes) = closes.length - min closes.length (w - 1) := by
  rw [emaTA, maskFirst_count, length_ewmaAdjFalse]

theorem ewmaFrom_const (a c : ℚ) : ∀ n : ℕ,
    ewmaFrom a c (List.replicate n c) = List.replicate n c := by
  intro n
  induction n with
  | zero => rfl
  | succ m ih =>
    rw [List.replicate_succ, ewmaFrom]
    have hc : a * c + (1 - a) * c = c := by ring
    rw [hc, ih]

theorem ewmaAdjFalse_const (w : ℕ) (c : ℚ) (n : ℕ) :
    ewmaAdjFalse w (List.replicate (n + 1) c) = List.replicate (n + 1) c := by
  rw [List.replicate_succ, ewmaAdjFalse, ewmaFrom_const, ← List.replicate_succ]

theorem getD_replicate (a d : ℚ) : ∀ (n i : ℕ), i < n →
    (List.replicate n a).getD i d = a := by
  intro n
  induction n with
  | zero => intro i h; omega
  | succ m ih =>
    intro i h
    rw [List.replicate_succ]
    cases i with
    | zero => rfl
    | succ j =>
      rw [List.getD_cons_succ]
      exact ih j (by omega)

theorem deathCrossStep_iff (closes : List ℚ) (h : EMA_LONG + 1 ≤ closes.length) :
    deathCrossStep closes = true ↔
      ((ewmaAdjFalse EMA_LONG closes).getD (closes.length - 2) 0
          < (ewmaAdjFalse EMA_SHORT closes).getD (closes.length - 2) 0 ∧
       (ewmaAdjFalse EMA_SHORT closes).getD (closes.length - 1) 0
          < (ewmaAdjFalse EMA_LONG closes).getD (closes.length - 1) 0) := by
  have hE : EMA_LONG = 26 := rfl
  have hS : EMA_SHORT = 12 := rfl
  have hn : 27 ≤ closes.length := by omega
  have hs2 : (emaTA EMA_SHORT closes).getD (closes.length - 2) none
      = some ((ewmaAdjFalse EMA_SHORT closes).getD (closes.length - 2) 0) := by
    rw [emaTA]
    exact maskFirst_getD _ _ _ (by omega) (by rw [length_ewmaAdjFalse]; omega)
  have hl2 : (emaTA EMA_LONG closes).getD (closes.length - 2) none
      = some ((ewmaAdjFalse EMA_LONG closes).getD (closes.length - 2) 0) := by
    rw [emaTA]
    exact maskFirst_getD _ _ _ (by omega) (by rw [length_ewmaAdjFalse]; omega)
  have hs1 : (emaTA EMA_SHORT closes).getD (closes.length - 1) none
      = some ((ewmaAdjFalse EMA_SHORT closes).getD (closes.length - 1) 0) := by
    rw [emaTA]
    exact maskFirst_getD _ _ _ (by omega) (by rw [length_ewmaAdjFalse]; omega)
  have hl1 : (emaTA EMA_LONG closes).getD (closes.length - 1) none
      = some ((ewmaAdjFalse EMA_LONG closes).getD (closes.length - 1) 0) := by
    rw [emaTA]
    exact maskFirst_getD _ _ _ (by omega) (by rw [length_ewmaAdjFalse]; omega)
  simp only [deathCrossStep, hs2, hl2, hs1, hl1, nanGt, nanLt]
  simp [Bool.and_eq_true, decide_eq_true_eq]

/-- C4: for every close series long enough for the check to run, the
death-cross flag is true iff the short EMA was strictly above the long EMA at
the second-to-last index and strictly below it at the last index; and whenever
the short EMA stays strictly above the long EMA at every index where the long
EMA is defined, the flag is false. -/
theorem death_cross_iff_transition :
    (∀ closes : List ℚ, EMA_LONG + 1 ≤ closes.length →
      (check_ema_death_cross closes = true ↔
        ((ewmaAdjFalse EMA_LONG closes).getD (closes.length - 2) 0
            < (ewmaAdjFalse EMA_SHORT closes).getD (closes.length - 2) 0 ∧
         (ewmaAdjFalse EMA_SHORT closes).getD (closes.length - 1) 0
            < (ewmaAdjFalse EMA_LONG closes).getD (closes.length - 1) 0))) ∧
    (∀ closes : List ℚ,
      (∀ i, i < closes.length → EMA_LONG - 1 ≤ i →
        (ewmaAdjFalse EMA_LONG closes).getD i 0
          < (ewmaAdjFalse EMA_SHORT closes).getD i 0) →
      check_ema_death_cross closes = false) := by
  have hgate : ∀ closes : List ℚ, EMA_LONG + 1 ≤ closes.length →
      check_ema_death_cross closes = deathCrossStep closes := by
    intro closes h
    simp only [check_ema_death_cross]
    rw [if_neg (not_lt.mpr h)]
  constructor
  · intro closes h
    rw [hgate closes h]
    exact deathCrossStep_iff closes h
  · intro closes hmono
    by_cases hlen : closes.length < EMA_LONG + 1
    · simp only [check_ema_death_cross]
      rw [if_pos hlen]
    · have h27 : EMA_LONG + 1 ≤ closes.length := le_of_not_lt hlen
      cases hc : check_ema_death_cross closes with
      | false => rfl
      | true =>
        exfalso
        have hstep : deathCrossStep closes = true := by
          rw [← hgate closes h27]
          exact hc
        obtain ⟨hup, hdown⟩ := (deathCrossStep_iff closes h27).mp hstep
        have hE : EMA_LONG = 26 := rfl
        have hm := hmono (closes.length - 1) (by omega) (by omega)
        linarith

/-- C4 witness: on a flat 27-bar series both EMAs coincide everywhere, so the
transition characterisation rules the flag out; on a 25-bar series the
never-flagged consequence holds with the dominance hypothesis vacuous. -/
theorem death_cross_iff_transition_w :
    check_ema_death_cross demoFlat27 = false ∧ check_ema_death_cross demoFlat25 = false := by
  constructor
  · have h27 : EMA_LONG + 1 ≤ demoFlat27.length := by
      simp [demoFlat27]
      rfl
    have hiff := death_cross_iff_transition.1 demoFlat27 h27
    cases hc : check_ema_death_cross demoFlat27 with
    | false => rfl
    | true =>
      exfalso
      obtain ⟨hup, _⟩ := hiff.mp hc
      rw [show ewmaAdjFalse EMA_LONG demoFlat27 = List.replicate 27 10 from
            ewmaAdjFalse_const EMA_LONG 10 26,
          show ewmaAdjFalse EMA_SHORT demoFlat27 = List.replicate 27 10 from
            ewmaAdjFalse_const EMA_SHORT 10 26] at hup
      rw [getD_replicate 10 0 27 (demoFlat27.length - 2) (by simp [demoFlat27])] at hup
      exact lt_irrefl _ hup
  · refine death_cross_iff_transition.2 demoFlat25 ?_
    intro i hi hle
    have h1 : demoFlat25.length = 25 := by simp [demoFlat25]
    have h2 : EMA_LONG - 1 = 25 := rfl
    rw [h1] at hi
    rw [h2] at hle
    omega

/-- C7: the death-cross check is gated (returns "not applicable") exactly when
the two `ta`-library EMA series do not both have at least 2 defined (non-NaN)
points, and performs the single-step crossover comparison whenever they do. -/
theorem death_cross_applicability (closes : List ℚ) :
    (closes.length < EMA_LONG + 1 ↔
      ¬(2 ≤ definedCount (emaTA EMA_SHORT closes) ∧
        2 ≤ definedCount (emaTA EMA_LONG closes))) ∧
    (2 ≤ definedCount (emaTA EMA_SHORT closes) →
      2 ≤ definedCount (emaTA EMA_LONG closes) →
      check_ema_death_cross closes = deathCrossStep closes) := by
  have hs := definedCount_emaTA EMA_SHORT closes
  have hl := definedCount_emaTA EMA_LONG closes
  have hS : EMA_SHORT - 1 = 11 := rfl
  have hE : EMA_LONG - 1 = 25 := rfl
  have hE1 : EMA_LONG + 1 = 27 := rfl
  rw [hS] at hs
  rw [hE] at hl
  constructor
  · rw [hs, hl, hE1]
    omega
  · intro h1 h2
    rw [hl] at h2
    simp only [check_ema_death_cross]
    rw [if_neg (by rw [hE1]; omega)]

/-- C7 witness: on the 27-bar flat series both EMA columns have at least two
defined points and the check equals the crossover comparison. -/
theorem death_cross_applicability_w :
    check_ema_death_cross demoFlat27 = deathCrossStep demoFlat27 :=
  (death_cross_applicability demoFlat27).2
    (by rw [definedCount_emaTA]; simp [demoFlat27, EMA_SHORT])
    (by rw [definedCount_emaTA]; simp [demoFlat27, EMA_LONG])
